import Mathlib

/-!
Verification development for the `ticks` conversational-analytics assistant.

Python strings are embedded as `List Char` (`Str`).  Each definition mirrors
one function of the repository:

* `validate`           — `app/policy/sql_policy.py`, `SqlPolicy.validate`
* `apply_row_limit`    — `app/policy/limits_policy.py`, `LimitsPolicy.apply_row_limit`
* `truncate_result`    — `app/policy/limits_policy.py`, `LimitsPolicy.truncate_result`
* `dataQaRun` etc.     — `app/orchestrator_fallback.py`, `FallbackOrchestrator.run`
* `workerRun` etc.     — `app/viz/code_sandbox.py`
* `orchRun`            — `app/orchestrator.py`, `Orchestrator.run`

Regular-expression searches used by the source (`re.search`, `re.sub`) are
modelled by explicit scanners over `List Char`; for each pattern the scanner
is a deterministic equivalent of the backtracking search, as documented at
each definition.
-/

abbrev Str := List Char

def str (s : String) : Str := s.data

/-- Python `str.isspace` / `\s` for the ASCII whitespace characters. -/
def isSpace (c : Char) : Bool :=
  c == ' ' || c == '\t' || c == '\n' || c == '\r' || c == '\x0b' || c == '\x0c'

/-- Python regex `\w`: alphanumeric or underscore (ASCII model). -/
def isWordChar (c : Char) : Bool := c.isAlphanum || c == '_'

/-- Python `str.strip()`: remove whitespace from both ends. -/
def pyStrip (s : Str) : Str :=
  ((s.dropWhile isSpace).reverse.dropWhile isSpace).reverse

/-- Python `str.rstrip(";")`: remove all trailing semicolons. -/
def rstripSemi (s : Str) : Str :=
  (s.reverse.dropWhile (fun c => c == ';')).reverse

/-- Python `str.lower()` (ASCII model, matching `Char.toLower`). -/
def lowerStr (s : Str) : Str := s.map Char.toLower

/-- Python `pat in s` (substring containment). -/
def containsSub (pat s : Str) : Bool :=
  (List.range (s.length + 1)).any (fun i => pat.isPrefixOf (s.drop i))

/- ---------------------------------------------------------------------
SqlPolicy (`app/policy/sql_policy.py`)
--------------------------------------------------------------------- -/

/-- `_DENY_KEYWORDS` from `sql_policy.py`. -/
def _DENY_KEYWORDS : List Str :=
  [str "insert", str "update", str "delete", str "merge",
   str "drop", str "alter", str "create", str "truncate",
   str "grant", str "revoke", str "execute", str "exec",
   str "xp_", str "sp_", str "openrowset", str "opendatasource"]

/-- Case-insensitive literal-prefix test: the first `kw.length` characters of
`l`, lowercased, equal `kw` (keywords are stored lowercase). -/
def lowerPrefixEq (kw : Str) (l : Str) : Bool :=
  decide (kw.length ≤ l.length) && (l.take kw.length).map Char.toLower == kw

/-- `\b` left of position `i` of `s`: start of string or previous char non-word. -/
def boundaryBeforeB (s : Str) (i : Nat) : Bool :=
  i == 0 || !(isWordChar (s.getD (i - 1) ' '))

/-- `\b` at the start of the remainder `l`: end of string or next char non-word. -/
def boundaryHead (l : Str) : Bool :=
  match l with
  | [] => true
  | c :: _ => !(isWordChar c)

/-- `re.search`: does `matcher` accept the remainder at some position whose
left context is a word boundary?  `matcher` receives `s.drop i`. -/
def searchFound (matcher : Str → Bool) (s : Str) : Bool :=
  (List.range (s.length + 1)).any (fun i => boundaryBeforeB s i && matcher (s.drop i))

/-- Body of `_DENY_PATTERN` at one position: some deny keyword, matched
case-insensitively, followed by a word boundary (`\b(kw1|kw2|...)\b`). -/
def denyMatchHere (l : Str) : Bool :=
  _DENY_KEYWORDS.any (fun kw => lowerPrefixEq kw l && boundaryHead (l.drop kw.length))

/-- `_DENY_PATTERN.search(s)` of `sql_policy.py`. -/
def denyFound (s : Str) : Bool := searchFound denyMatchHere s

def emptyMsg : Str := str "Empty SQL"
def multiMsg : Str := str "Multiple statements are not allowed"
def commentMsg : Str := str "SQL comments are not allowed"
def onlySelectMsg : Str := str "Only SELECT queries are allowed"
def denyKwMsg : Str := str "DDL/DML or unsafe keyword detected"

/-- `SqlPolicy.validate` of `sql_policy.py`.  The four checks after the
emptiness guard are all evaluated and their violation messages concatenated
in source order. -/
def validate (sql : Str) : List Str :=
  let s := pyStrip sql
  if s.isEmpty then [emptyMsg]
  else
    (if s.dropLast.contains ';' then [multiMsg] else []) ++
    (if containsSub (str "--") s || containsSub (str "/*") s || containsSub (str "*/") s
      then [commentMsg] else []) ++
    (if (str "select").isPrefixOf (lowerStr s) || (str "with").isPrefixOf (lowerStr s)
      then [] else [onlySelectMsg]) ++
    (if denyFound s then [denyKwMsg] else [])

/- ---------------------------------------------------------------------
LimitsPolicy (`app/policy/limits_policy.py`)
--------------------------------------------------------------------- -/

def digitChar (d : Nat) : Char := Char.ofNat (48 + d)

/-- Decimal digits of a natural number, most significant first; `fuel`
bounds the recursion depth (any `fuel > n` computes all digits). -/
def natCharsAux : Nat → Nat → Str
  | 0, _ => []
  | fuel + 1, n =>
    if n < 10 then [digitChar n]
    else natCharsAux fuel (n / 10) ++ [digitChar (n % 10)]

/-- Decimal rendering of a natural number (Python `f"{max_rows}"`). -/
def natChars (n : Nat) : Str := natCharsAux (n + 1) n

/-- Continuation after `\s+`: first char must be whitespace, then the
continuation runs at the first non-whitespace position (greedy `\s+` is
equivalent to this for the patterns below, whose next atoms never match
whitespace). -/
def spacesThen (p : Str → Bool) (l : Str) : Bool :=
  match l with
  | [] => false
  | c :: rest => isSpace c && p (rest.dropWhile isSpace)

def headIsDigit (l : Str) : Bool :=
  match l with
  | [] => false
  | c :: _ => c.isDigit

/-- Body of `\btop\s+\(?\s*\d+\s*\)?` at one position (the trailing
`\s*\)?` always matches the empty string, so a match exists iff
`top`, whitespace, an optional paren with whitespace, and a digit occur). -/
def topMatchHere (l : Str) : Bool :=
  lowerPrefixEq (str "top") l &&
  spacesThen (fun l2 =>
    match l2 with
    | '(' :: l3 => headIsDigit (l3.dropWhile isSpace)
    | _ => headIsDigit l2) (l.drop 3)

/-- `re.search(r"\btop\s+\(?\s*\d+\s*\)?", s, re.IGNORECASE)`. -/
def topFound (s : Str) : Bool := searchFound topMatchHere s

/-- Body of `\blimit\s+\d+\b` at one position.  `\d+` greedy followed by `\b`
is equivalent to taking the maximal digit run: any shorter run ends right
before a digit, which is a word character, so no boundary exists there. -/
def limitMatchHere (l : Str) : Bool :=
  lowerPrefixEq (str "limit") l &&
  spacesThen (fun l2 =>
    match l2 with
    | [] => false
    | c :: _ => c.isDigit && boundaryHead (l2.dropWhile Char.isDigit)) (l.drop 5)

/-- `re.search(r"\blimit\s+\d+\b", s, re.IGNORECASE)`. -/
def limitFound (s : Str) : Bool := searchFound limitMatchHere s

/-- End position of the match of `_select_re = ^\s*select\s+` on `s`, if any.
`^\s*` takes all leading whitespace and `\s+` (greedy, at least one) all
whitespace after `select`; no backtracking alternative exists because
`select` cannot begin with whitespace. -/
def selectMatchEnd (s : Str) : Option Nat :=
  let lead := (s.takeWhile isSpace).length
  let rest := s.drop lead
  if lowerPrefixEq (str "select") rest then
    let ws := ((rest.drop 6).takeWhile isSpace).length
    if ws == 0 then none else some (lead + 6 + ws)
  else none

/-- `_select_re.sub(f"SELECT TOP ({max_rows}) ", s, count=1)`: replace the
leading-`select` match (if any) by the literal replacement. -/
def subSelectTop (n : Nat) (s : Str) : Str :=
  match selectMatchEnd s with
  | none => s
  | some e => str "SELECT TOP (" ++ natChars n ++ str ") " ++ s.drop e

def sqlserverStr : Str := str "sqlserver"

/-- Branch body of `LimitsPolicy.apply_row_limit` on the normalised
statement `s = sql.strip().rstrip(";")`. -/
def rowLimitCore (backend : Str) (max_rows : Nat) (s : Str) : Str :=
  if backend == sqlserverStr then
    if topFound s then s else subSelectTop max_rows s
  else
    if limitFound s then s else s ++ str " LIMIT " ++ natChars max_rows

/-- `LimitsPolicy.apply_row_limit` of `limits_policy.py`. -/
def apply_row_limit (sql : Str) (backend : Str) (max_rows : Nat) : Str :=
  rowLimitCore backend max_rows (rstripSemi (pyStrip sql))

/-- `LimitsPolicy.truncate_result` of `limits_policy.py`. -/
def truncate_result {α β : Type} (columns : List α) (rows : List (List β))
    (max_cols max_rows : Nat) : List α × List (List β) × Bool :=
  let step1 :=
    if max_cols < columns.length
    then (columns.take max_cols, rows.map (fun r => r.take max_cols), true)
    else (columns, rows, false)
  let step2 :=
    if max_rows < step1.2.1.length
    then (step1.2.1.take max_rows, true)
    else (step1.2.1, step1.2.2)
  (step1.1, step2.1, step2.2)

/- ---------------------------------------------------------------------
FallbackOrchestrator (`app/orchestrator_fallback.py`)

The orchestrator's collaborators (database executor, LLM error triage) are
modelled as oracles indexed by the 0-based number of the execution attempt:
`execErr k = some m` means the k-th call to the execution collaborator
raises an exception rendered as `m`; `triage k` is the parsed triage
decision consulted after that failing call.  Terminal `ChatResponse`
statuses are the `RunStatus` constructors; `needConfirmation` is produced
only by the available-data orchestrator (`app/orchestrator.py`).
--------------------------------------------------------------------- -/

inductive RunStatus
  | ok
  | needClarification
  | blocked
  | error
  | needConfirmation
deriving DecidableEq, Repr

/-- `SqlPlan` of `contracts/models.py` (the fields the loops use). -/
structure SqlPlan where
  sql_server : Str
  sql_sqlite : Str
deriving DecidableEq, Repr

/-- `SafetyReport` of `contracts/models.py` (minus `user_message`). -/
structure SafetyReport where
  is_safe : Bool
  safe_sql_server : Option Str
  safe_sql_sqlite : Option Str
  violations : List Str
deriving DecidableEq, Repr

def dialectSql (backend : Str) (p : SqlPlan) : Str :=
  if backend == sqlserverStr then p.sql_server else p.sql_sqlite

/-- `SQLSafetyGuardAgent.run` of `agents/sql_safety_guard.py` for a present
plan: validate the backend-selected SQL; if clean, emit limit-applied SQL
for both dialects. -/
def safetyRun (backend : Str) (maxRows : Nat) (p : SqlPlan) : SafetyReport :=
  let v := validate (dialectSql backend p)
  if v.isEmpty then
    ⟨true, some (apply_row_limit p.sql_server sqlserverStr maxRows),
      some (apply_row_limit p.sql_sqlite (str "sqlite") maxRows), []⟩
  else ⟨false, none, none, v⟩

/-- The SQL the `DBExecutorAgent` sends to the database for a safe report
(`agents/db_executor.py` line 25). -/
def selectSafeSql (backend : Str) (rep : SafetyReport) : Str :=
  if backend == sqlserverStr then rep.safe_sql_server.getD []
  else rep.safe_sql_sqlite.getD []

inductive TriageAction
  | retryWithPatch
  | askClarification
  | stop
deriving DecidableEq, Repr

/-- Parsed error-triage reply: the action (any unrecognised/missing action
is `stop`, the code's `else` branch) and the optional truthy
`patched_sql_server` / `patched_sql_sqlite` fields. -/
structure TriageDecision where
  action : TriageAction
  patched_sql_server : Option Str
  patched_sql_sqlite : Option Str
deriving DecidableEq, Repr

/-- The patch assignments of `orchestrator_fallback.py` lines 277-281:
each plan field is overwritten only when the triage supplied a truthy
patched value. -/
def applyPatch (p : SqlPlan) (d : TriageDecision) : SqlPlan :=
  ⟨d.patched_sql_server.getD p.sql_server, d.patched_sql_sqlite.getD p.sql_sqlite⟩

/-- Observable outcome of the DATA_QA execute-with-retries loop: terminal
status, number of calls to the execution collaborator, the safe SQL strings
handed to it (in order), and the final value of the `attempt` counter. -/
structure LoopOut where
  status : RunStatus
  execCalls : Nat
  execSqls : List Str
  attempts : Nat
deriving DecidableEq, Repr

/-- The DATA_QA retry loop, `orchestrator_fallback.py` lines 253-308.
`fuel` is an upper bound on loop iterations used only to make the
recursion structural; the loop performs at most `max maxRetry 1`
iterations (each failing iteration increments `attempt`, and the loop
returns `error` as soon as `maxRetry ≤ attempt`), so the callers below
pass `maxRetry + 1` and the fuel-exhausted default is never reached. -/
def dataQaLoop (backend : Str) (maxRetry maxRows : Nat)
    (execErr : Nat → Option Str) (triage : Nat → TriageDecision)
    (fuel : Nat) (plan : SqlPlan) (rep : SafetyReport)
    (attempt calls : Nat) (log : List Str) : LoopOut :=
  match fuel with
  | 0 => ⟨.error, calls, log, attempt⟩
  | fuel + 1 =>
    let sql := selectSafeSql backend rep
    let calls' := calls + 1
    let log' := log ++ [sql]
    match execErr calls with
    | none => ⟨.ok, calls', log', attempt⟩
    | some _ =>
      let attempt' := attempt + 1
      if maxRetry ≤ attempt' then ⟨.error, calls', log', attempt'⟩
      else
        let d := triage calls
        match d.action with
        | .retryWithPatch =>
          let plan' := applyPatch plan d
          let rep' := safetyRun backend maxRows plan'
          if rep'.is_safe then
            dataQaLoop backend maxRetry maxRows execErr triage fuel plan' rep' attempt' calls' log'
          else ⟨.blocked, calls', log', attempt'⟩
        | .askClarification => ⟨.needClarification, calls', log', attempt'⟩
        | .stop => ⟨.error, calls', log', attempt'⟩

/-- The DATA_QA path from its SAFETY_CHECK on (`orchestrator_fallback.py`
lines 243-308): an unsafe initial plan is terminal `blocked` with no
execution; otherwise the retry loop runs. -/
def dataQaRun (backend : Str) (maxRetry maxRows : Nat) (execErr : Nat → Option Str)
    (triage : Nat → TriageDecision) (plan : SqlPlan) : LoopOut :=
  let rep := safetyRun backend maxRows plan
  if rep.is_safe then
    dataQaLoop backend maxRetry maxRows execErr triage (maxRetry + 1) plan rep 0 0 []
  else ⟨.blocked, 0, [], 0⟩

/-- One element of the `executed` list of the ANALYTICS_REPORT path:
the sub-query name and its `error` field (`none` for a successful entry). -/
structure Entry where
  name : Str
  error : Option Str
deriving DecidableEq, Repr

def blockedPolicyMsg : Str := str "Blocked by SQL policy"
def patchedBlockedMsg : Str := str "Patched SQL blocked by policy"

/-- Rendering of the `NameError` raised by the success branch of the report
loop (`orchestrator_fallback.py` lines 139-150), which references the
undefined names `viz` and `fig_obj` while building the result entry.
The ASCII quotes of the Python message are omitted. -/
def nameErrMsg : Str := str "NameError: name viz is not defined"

/-- Outcome of one report sub-query: the appended `executed` entry (or the
whole-run clarification return), the running execution-call counter, and
the safe SQL strings handed to the execution collaborator. -/
inductive SubOut
  | done (e : Entry) (calls : Nat) (log : List Str)
  | clarify (calls : Nat) (log : List Str)
deriving DecidableEq, Repr

/-- The per-sub-query retry loop of the ANALYTICS_REPORT path,
`orchestrator_fallback.py` lines 133-192.  Every iteration reaches the
`except` branch: either the DB call raises (`execErr calls = some m`), or
the success path raises `NameError` while building the `executed` entry
(see `nameErrMsg`), so no iteration can break out successfully.
`fuel` plays the same role as in `dataQaLoop`. -/
def reportSubLoop (backend : Str) (maxRetry maxRows : Nat)
    (execErr : Nat → Option Str) (triage : Nat → TriageDecision)
    (specName : Str) (fuel : Nat) (plan : SqlPlan) (rep : SafetyReport)
    (attempt calls : Nat) (log : List Str) : SubOut :=
  match fuel with
  | 0 => .done ⟨specName, some (str "fuel exhausted")⟩ calls log
  | fuel + 1 =>
    let calls' := calls + 1
    let log' := log ++ [selectSafeSql backend rep]
    let e := match execErr calls with
      | some m => m
      | none => nameErrMsg
    let attempt' := attempt + 1
    if maxRetry ≤ attempt' then .done ⟨specName, some e⟩ calls' log'
    else
      let d := triage calls
      match d.action with
      | .retryWithPatch =>
        let plan' := applyPatch plan d
        let rep' := safetyRun backend maxRows plan'
        if rep'.is_safe then
          reportSubLoop backend maxRetry maxRows execErr triage specName fuel plan' rep' attempt' calls' log'
        else .done ⟨specName, some patchedBlockedMsg⟩ calls' log'
      | .askClarification => .clarify calls' log'
      | .stop => .done ⟨specName, some e⟩ calls' log'

/-- One parsed `ReportQuerySpec` (name and the two SQL dialects). -/
structure ReportSpec where
  name : Str
  sql_server : Str
  sql_sqlite : Str
deriving DecidableEq, Repr

structure ReportOut where
  status : RunStatus
  entries : List Entry
  execCalls : Nat
deriving DecidableEq, Repr

/-- The per-spec iteration of the ANALYTICS_REPORT path
(`orchestrator_fallback.py` lines 119-221): an unsafe initial plan appends
a `Blocked by SQL policy` entry and continues with the next spec; an
`ASK_CLARIFICATION` triage returns terminal `need_clarification`; after
all specs the report is written and the response status is `ok`. -/
def reportRunGo (backend : Str) (maxRetry maxRows : Nat) (execErr : Nat → Option Str)
    (triage : Nat → TriageDecision) :
    List ReportSpec → Nat → List Entry → ReportOut
  | [], calls, acc => ⟨.ok, acc, calls⟩
  | spec :: rest, calls, acc =>
    let plan : SqlPlan := ⟨spec.sql_server, spec.sql_sqlite⟩
    let rep := safetyRun backend maxRows plan
    if rep.is_safe then
      match reportSubLoop backend maxRetry maxRows execErr triage spec.name
          (maxRetry + 1) plan rep 0 calls [] with
      | .done e calls' _ =>
        reportRunGo backend maxRetry maxRows execErr triage rest calls' (acc ++ [e])
      | .clarify calls' _ => ⟨.needClarification, acc, calls'⟩
    else
      reportRunGo backend maxRetry maxRows execErr triage rest calls
        (acc ++ [⟨spec.name, some blockedPolicyMsg⟩])

def reportRun (backend : Str) (maxRetry maxRows : Nat) (execErr : Nat → Option Str)
    (triage : Nat → TriageDecision) (specs : List ReportSpec) : ReportOut :=
  reportRunGo backend maxRetry maxRows execErr triage specs 0 []

/-- A triage decision that retries with a patch replacing both dialects by
SQL that passes the safety check. -/
def alwaysSafePatch (backend : Str) (maxRows : Nat) (d : TriageDecision) : Prop :=
  d.action = .retryWithPatch ∧
  ∃ ps pl, d.patched_sql_server = some ps ∧ d.patched_sql_sqlite = some pl ∧
    (safetyRun backend maxRows ⟨ps, pl⟩).is_safe = true

/-- `s` is the safe SQL produced by a plan that passed `safetyRun`
validation — the property every SQL string handed to the execution
collaborator must satisfy. -/
def fromValidatedPlan (backend : Str) (maxRows : Nat) (s : Str) : Prop :=
  ∃ q : SqlPlan, (safetyRun backend maxRows q).is_safe = true ∧
    s = selectSafeSql backend (safetyRun backend maxRows q)

/- ---------------------------------------------------------------------
CodeSandbox (`app/viz/code_sandbox.py`)

The submitted code is represented by the node list of `ast.walk` over its
parsed tree; the effect of `exec` on rule-clean code is an oracle
(`ExecOutcome`), and whether the worker process finishes within the
timeout is an oracle of `run_viz_code`.
--------------------------------------------------------------------- -/

inductive AstNode
  | importNode
  | callNameNode (id : Str)
  | nameNode (id : Str)
  | otherNode
deriving DecidableEq, Repr

/-- `_BLOCKED_NAMES` of `code_sandbox.py`. -/
def _BLOCKED_NAMES : List Str :=
  [str "__import__", str "eval", str "exec", str "compile", str "open",
   str "input", str "os", str "sys", str "subprocess", str "socket",
   str "pathlib", str "shutil", str "requests", str "urllib", str "http",
   str "ftplib"]

def importErrMsg : Str := str "Imports are not allowed in visualization code."
def callBlockedPre : Str := str "Call to blocked function: "
def nameBlockedPre : Str := str "Use of blocked name: "

def nodeViolation : AstNode → Option Str
  | .importNode => some importErrMsg
  | .callNameNode id =>
    if _BLOCKED_NAMES.contains id then some (callBlockedPre ++ id) else none
  | .nameNode id =>
    if _BLOCKED_NAMES.contains id then some (nameBlockedPre ++ id) else none
  | .otherNode => none

/-- `_validate_ast` of `code_sandbox.py`: the error raised at the first
violating node of the walk, if any. -/
def _validate_ast (nodes : List AstNode) : Option Str :=
  nodes.findSome? nodeViolation

inductive ExecOutcome
  | raises (msg : Str)
  | completes (figAssigned : Bool)
deriving DecidableEq, Repr

structure WorkerOut where
  ok : Bool
  error : Option Str
  hasFig : Bool
  executedCode : Bool
deriving DecidableEq, Repr

/-- `_worker` of `code_sandbox.py`: validate the AST, then (only if clean)
run `exec`; `executedCode` records whether `exec` was reached.  On a clean
completion a figure handle always exists (`fig` or the `plt.gcf()`
fallback). -/
def workerRun (nodes : List AstNode) (eo : ExecOutcome) : WorkerOut :=
  match _validate_ast nodes with
  | some m => ⟨false, some m, false, false⟩
  | none =>
    match eo with
    | .raises m => ⟨false, some m, false, true⟩
    | .completes _ => ⟨true, none, true, true⟩

structure SandboxRunOut where
  ok : Bool
  error : Option Str
  terminated : Bool
deriving DecidableEq, Repr

def timeoutMsg (t : Nat) : Str :=
  str "Visualization code timed out after " ++ natChars t ++ str "s"

/-- `run_viz_code` of `code_sandbox.py`: if the worker process is still
alive after `join(timeout_seconds)` it is terminated and the fixed timeout
failure is returned; otherwise the worker's queued result is returned.
`terminated` records whether `p.terminate()` was called. -/
def run_viz_code (nodes : List AstNode) (eo : ExecOutcome)
    (finishesInTime : Bool) (timeoutSeconds : Nat) : SandboxRunOut :=
  if finishesInTime then
    let w := workerRun nodes eo
    ⟨w.ok, w.error, false⟩
  else ⟨false, some (timeoutMsg timeoutSeconds), true⟩

/- ---------------------------------------------------------------------
Orchestrator, available-data lane (`app/orchestrator.py`)

Intent resolution (rule/fuzzy/LLM routing) and the available-data engine
are collaborators; only their observable outcome matters here: `ansOk`
models `ans.ok and ans.df is not None` for the engine answer of the
resolved intent, and `proceedStatus`/`proceedAnswer` model the response
built by the dataset-answer branch (which never invokes the fallback). -/

def _GREETINGS : List Str :=
  [str "hi", str "hello", str "hey", str "good morning", str "good afternoon",
   str "good evening", str "morning", str "afternoon", str "evening"]

/-- `_is_greeting` of `orchestrator.py`. -/
def _is_greeting (text : Str) : Bool :=
  let t := lowerStr (pyStrip text)
  if _GREETINGS.contains t then true
  else
    decide (t.length ≤ 20) &&
      ([str "hi", str "hello", str "good morning", str "good evening"].any
        (fun g => containsSub g t))

structure OrchOut where
  status : RunStatus
  answer : Str
  usedFallback : Bool
deriving DecidableEq, Repr

/-- The answer of `Orchestrator._ask_search_elsewhere`. -/
def askSearchMsg : Str :=
  str "I can’t find that data in what’s currently available. Do you want me to search elsewhere?"

def greetingAnswer : Str :=
  str "Hello. Select a role to see recommended questions, or ask a question about trends, performance, risk, or platform health."

def _ask_search_elsewhere : OrchOut := ⟨.needConfirmation, askSearchMsg, false⟩

/-- `Orchestrator.run` of `orchestrator.py`, to the point where the
available-data answer is inspected (lines 245-322): greetings answer `ok`;
a confirmed `confirm_search_elsewhere` routes to the fallback pipeline;
otherwise the engine answer is attempted and, when it reports no usable
dataset (`not ans.ok or ans.df is None`), `_ask_search_elsewhere` is
returned. -/
def orchRun (msg : Str) (confirmSearchElsewhere : Bool) (ansOk : Bool)
    (proceedStatus : RunStatus) (proceedAnswer : Str) (fallbackOut : OrchOut) : OrchOut :=
  if _is_greeting msg then ⟨.ok, greetingAnswer, false⟩
  else if confirmSearchElsewhere then ⟨fallbackOut.status, fallbackOut.answer, true⟩
  else if ansOk then ⟨proceedStatus, proceedAnswer, false⟩
  else _ask_search_elsewhere

/- =====================================================================
Theorems.  Helper lemmas first, then one theorem per claim (with witness
or counterexample theorems where required).
===================================================================== -/

theorem dropWhile_append_cons {α : Type} (p : α → Bool) (a : List α) (c : α)
    (t : List α) (hc : p c = false) :
    (a ++ c :: t).dropWhile p = a.dropWhile p ++ c :: t := by
  induction a with
  | nil => simp [List.dropWhile_cons, hc]
  | cons x xs ih =>
    by_cases hx : p x
    · simpa [List.dropWhile_cons, hx] using ih
    · simp [List.dropWhile_cons, hx]

theorem dropWhile_append_of_ne_nil {α : Type} (p : α → Bool) (a x : List α) (d : α)
    (hx : x ≠ []) (hh : p (x.headD d) = false) :
    (a ++ x).dropWhile p = a.dropWhile p ++ x := by
  obtain ⟨c, t, rfl⟩ := List.exists_cons_of_ne_nil hx
  exact dropWhile_append_cons p a c t (by simpa using hh)

theorem headD_dropWhile_false {α : Type} (p : α → Bool) (l : List α) (d : α)
    (h : l.dropWhile p ≠ []) : p ((l.dropWhile p).headD d) = false := by
  induction l with
  | nil => simp at h
  | cons x xs ih =>
    by_cases hx : p x
    · simpa [List.dropWhile_cons, hx] using ih (by simpa [List.dropWhile_cons, hx] using h)
    · simp [List.dropWhile_cons, hx]

theorem headD_of_prefix {l₁ l₂ : Str} (h : l₁ <+: l₂) (hne : l₁ ≠ []) (d : Char) :
    l₂.headD d = l₁.headD d := by
  obtain ⟨t, rfl⟩ := h
  simp [List.headD_eq_head?_getD, List.head?_append_of_ne_nil _ hne]

theorem getLastD_of_suffix {l₁ l₂ : Str} (h : l₁ <:+ l₂) (hne : l₁ ≠ []) (d : Char) :
    l₂.getLastD d = l₁.getLastD d := by
  obtain ⟨t, rfl⟩ := h
  simp [List.getLastD_eq_getLast?, List.getLast?_append_of_ne_nil _ hne]

theorem rstripSemi_prefix (s : Str) : rstripSemi s <+: s := by
  have h : s.reverse.dropWhile (fun c => c == ';') <:+ s.reverse :=
    List.dropWhile_suffix _
  unfold rstripSemi
  have h2 : (s.reverse.dropWhile (fun c => c == ';')).reverse <+: s.reverse.reverse :=
    List.reverse_prefix.mpr (by simpa using h)
  simpa using h2

theorem pyStrip_prefix_dropWhile (s : Str) : pyStrip s <+: s.dropWhile isSpace := by
  unfold pyStrip
  have h : (s.dropWhile isSpace).reverse.dropWhile isSpace <:+ (s.dropWhile isSpace).reverse :=
    List.dropWhile_suffix _
  have h2 : ((s.dropWhile isSpace).reverse.dropWhile isSpace).reverse <+:
      (s.dropWhile isSpace).reverse.reverse := List.reverse_prefix.mpr (by simpa using h)
  simpa using h2

theorem headD_pyStrip_not_space (s : Str) (h : pyStrip s ≠ []) :
    isSpace ((pyStrip s).headD ' ') = false := by
  rw [← headD_of_prefix (pyStrip_prefix_dropWhile s) h ' ']
  exact headD_dropWhile_false isSpace s ' '
    (fun he => h (List.eq_nil_of_prefix_nil (he ▸ pyStrip_prefix_dropWhile s)))

theorem isSpace_toLower {c : Char} (h : isSpace c = true) : isSpace c.toLower = true := by
  simp only [isSpace, Bool.or_eq_true, beq_iff_eq] at h
  rcases h with ((((h | h) | h) | h) | h) | h <;> subst h <;> decide

theorem digitChar_isDigit (d : Nat) (h : d < 10) : (digitChar d).isDigit = true := by
  interval_cases d <;> decide

theorem isDigit_not_space {c : Char} (h : c.isDigit = true) : isSpace c = false := by
  simp only [isSpace, Bool.or_eq_false_iff, beq_eq_false_iff_ne, ne_eq]
  refine ⟨⟨⟨⟨⟨?_, ?_⟩, ?_⟩, ?_⟩, ?_⟩, ?_⟩ <;> rintro rfl <;> exact absurd h (by decide)

theorem isDigit_ne_semi {c : Char} (h : c.isDigit = true) : (c == ';') = false := by
  rw [beq_eq_false_iff_ne]
  rintro rfl
  exact absurd h (by decide)

theorem isDigit_word {c : Char} (h : c.isDigit = true) : isWordChar c = true := by
  simp [isWordChar, Char.isAlphanum, h]

theorem natCharsAux_facts : ∀ fuel n, n + 1 ≤ fuel →
    natCharsAux fuel n ≠ [] ∧ ∀ c ∈ natCharsAux fuel n, c.isDigit = true := by
  intro fuel
  induction fuel with
  | zero => intro n h; omega
  | succ fuel ih =>
    intro n h
    rw [natCharsAux]
    split
    · next hlt =>
      refine ⟨by simp, ?_⟩
      intro c hc
      simp only [List.mem_singleton] at hc
      subst hc
      exact digitChar_isDigit _ hlt
    · next hlt =>
      have hrec := ih (n / 10) (by omega)
      refine ⟨by simp, ?_⟩
      intro c hc
      rcases List.mem_append.mp hc with h1 | h1
      · exact hrec.2 c h1
      · simp only [List.mem_singleton] at h1
        subst h1
        exact digitChar_isDigit _ (Nat.mod_lt _ (by omega))

theorem natChars_ne_nil (n : Nat) : natChars n ≠ [] :=
  (natCharsAux_facts (n + 1) n (Nat.le_refl _)).1

theorem natChars_digits (n : Nat) : ∀ c ∈ natChars n, c.isDigit = true :=
  (natCharsAux_facts (n + 1) n (Nat.le_refl _)).2

theorem searchFound_append (m : Str → Bool) (x y : Str)
    (hx : x = [] ∨ isWordChar (x.getLastD ' ') = false) (hm : m y = true) :
    searchFound m (x ++ y) = true := by
  unfold searchFound
  rw [List.any_eq_true]
  refine ⟨x.length, ?_, ?_⟩
  · simp only [List.mem_range, List.length_append]
    omega
  · rw [Bool.and_eq_true]
    refine ⟨?_, by rw [List.drop_left]; exact hm⟩
    unfold boundaryBeforeB
    rcases hx with rfl | hx
    · simp
    · rcases List.eq_nil_or_concat x with rfl | ⟨ys, a, rfl⟩
      · simp
      · simp only [List.concat_eq_append] at hx ⊢
        have hg : ((ys ++ [a]) ++ y).getD ((ys ++ [a]).length - 1) ' ' = a := by
          rw [List.getD_eq_getElem?_getD, List.append_assoc, List.singleton_append,
            List.length_append, List.length_singleton, Nat.add_sub_cancel,
            List.getElem?_append_right (Nat.le_refl _), Nat.sub_self]
          simp
        rw [hg]
        rw [List.getLastD_concat] at hx
        simp [hx]

theorem pyStrip_append_decomp (a m b : Str) (hm : m ≠ [])
    (hh : isSpace (m.headD ' ') = false) (hl : isSpace (m.getLastD ' ') = false) :
    pyStrip (a ++ m ++ b) =
      a.dropWhile isSpace ++ m ++ (b.reverse.dropWhile isSpace).reverse := by
  have hmb : m ++ b ≠ [] := List.append_ne_nil_of_left_ne_nil hm b
  have hhd : isSpace ((m ++ b).headD ' ') = false := by
    rw [List.headD_eq_head?_getD, List.head?_append_of_ne_nil _ hm,
      ← List.headD_eq_head?_getD]
    exact hh
  have h1 : (a ++ (m ++ b)).dropWhile isSpace = a.dropWhile isSpace ++ (m ++ b) :=
    dropWhile_append_of_ne_nil isSpace a (m ++ b) ' ' hmb hhd
  have hmr : m.reverse ++ (a.dropWhile isSpace).reverse ≠ [] := by simp [hm]
  have hhr : isSpace ((m.reverse ++ (a.dropWhile isSpace).reverse).headD ' ') = false := by
    rw [List.headD_eq_head?_getD,
      List.head?_append_of_ne_nil _ (by simpa using hm : m.reverse ≠ []),
      List.head?_reverse, ← List.getLastD_eq_getLast?]
    exact hl
  calc pyStrip (a ++ m ++ b)
      = ((a.dropWhile isSpace ++ (m ++ b)).reverse.dropWhile isSpace).reverse := by
        unfold pyStrip
        rw [List.append_assoc, h1]
    _ = ((b.reverse ++ (m.reverse ++ (a.dropWhile isSpace).reverse)).dropWhile isSpace).reverse := by
        simp [List.reverse_append, List.append_assoc]
    _ = (b.reverse.dropWhile isSpace ++ (m.reverse ++ (a.dropWhile isSpace).reverse)).reverse := by
        rw [dropWhile_append_of_ne_nil isSpace _ _ ' ' hmr hhr]
    _ = a.dropWhile isSpace ++ m ++ (b.reverse.dropWhile isSpace).reverse := by
        simp [List.reverse_append, List.append_assoc]

/-- C4: for every columns list of length C, rows list of length R, and caps
`max_cols`, `max_rows`, `truncate_result` returns at most `max_cols` columns
and at most `max_rows` rows, and its truncated flag equals
`C > max_cols or R > max_rows`. -/
theorem truncate_result_invariant {α β : Type} (columns : List α)
    (rows : List (List β)) (max_cols max_rows : Nat) :
    (truncate_result columns rows max_cols max_rows).1.length ≤ max_cols ∧
    (truncate_result columns rows max_cols max_rows).2.1.length ≤ max_rows ∧
    (truncate_result columns rows max_cols max_rows).2.2
      = (decide (max_cols < columns.length) || decide (max_rows < rows.length)) := by
  unfold truncate_result
  by_cases h1 : max_cols < columns.length <;>
    by_cases h2 : max_rows < rows.length <;>
      simp [h1, h2, List.length_take, List.length_map] <;> omega

/-- C8: visualization code containing an import statement is rejected by the
sandbox before any of it executes — the worker never reaches `exec`, its
queued result is a failure, and `run_viz_code` returns a failure whether or
not the worker finished within the timeout. -/
theorem sandbox_rejects_import (nodes : List AstNode) (eo : ExecOutcome)
    (finishes : Bool) (t : Nat) (h : AstNode.importNode ∈ nodes) :
    (workerRun nodes eo).executedCode = false ∧ (workerRun nodes eo).ok = false ∧
    (run_viz_code nodes eo finishes t).ok = false := by
  have hv : ∃ msg, _validate_ast nodes = some msg := by
    cases heq : _validate_ast nodes with
    | some m => exact ⟨m, rfl⟩
    | none =>
      have := (List.findSome?_eq_none_iff.mp heq) AstNode.importNode h
      simp [nodeViolation] at this
  obtain ⟨msg, hmsg⟩ := hv
  cases finishes <;> simp [workerRun, run_viz_code, hmsg]

/-- C8 witness: a one-statement program consisting of an import is rejected
without execution and without a successful result. -/
theorem sandbox_rejects_import_witness :
    (workerRun [AstNode.importNode] (.completes true)).executedCode = false ∧
    (workerRun [AstNode.importNode] (.completes true)).ok = false ∧
    (run_viz_code [AstNode.importNode] (.completes true) true 5).ok = false :=
  sandbox_rejects_import [AstNode.importNode] (.completes true) true 5 (by simp)

/-- C9: when the worker does not finish within the timeout, `run_viz_code`
terminates the worker process and returns the dedicated timeout failure
(the fixed timeout message, independent of anything the code did); a worker
that finishes in time is never terminated, so the termination + fixed
message pair is exclusive to the timeout outcome. -/
theorem sandbox_timeout_kills (nodes : List AstNode) (eo : ExecOutcome) (t : Nat) :
    run_viz_code nodes eo false t = ⟨false, some (timeoutMsg t), true⟩ ∧
    (∀ eo2, (run_viz_code nodes eo2 true t).terminated = false) := by
  constructor
  · simp [run_viz_code]
  · intro eo2
    simp [run_viz_code]

/-- C10: on a non-greeting turn without the `confirm_search_elsewhere` flag,
if the available-data engine finds no usable dataset the orchestrator
returns the `need_confirmation` response asking whether to search
elsewhere (a fixed non-empty message), and the fallback pipeline is never
invoked while the flag is unset. -/
theorem availableData_asks_confirmation (msg : Str) (ansOk : Bool)
    (ps : RunStatus) (pa : Str) (fb : OrchOut)
    (hg : _is_greeting msg = false) :
    (ansOk = false →
      orchRun msg false ansOk ps pa fb = ⟨.needConfirmation, askSearchMsg, false⟩ ∧
      askSearchMsg ≠ []) ∧
    (orchRun msg false ansOk ps pa fb).usedFallback = false := by
  constructor
  · rintro rfl
    refine ⟨by simp [orchRun, hg, _ask_search_elsewhere], by decide⟩
  · cases ansOk <;> simp [orchRun, hg, _ask_search_elsewhere]

/-- C10 witness: a concrete data question with no matching dataset halts in
`need_confirmation` with the search-elsewhere prompt. -/
theorem availableData_asks_confirmation_witness :
    _is_greeting (str "metric coverage for q3 deposits") = false ∧
    orchRun (str "metric coverage for q3 deposits") false false .ok [] ⟨.ok, [], false⟩
      = ⟨.needConfirmation, askSearchMsg, false⟩ :=
  ⟨by decide,
    ((availableData_asks_confirmation (str "metric coverage for q3 deposits") false
      .ok [] ⟨.ok, [], false⟩ (by decide)).1 rfl).1⟩

/-- C7: a SQL string that does not begin — after leading whitespace,
case-insensitively — with `select` or `with` gets a violation from
`validate` (the non-empty violation list). -/
theorem validate_requires_select (sql : Str)
    (hsel : (str "select").isPrefixOf (lowerStr (sql.dropWhile isSpace)) = false)
    (hwith : (str "with").isPrefixOf (lowerStr (sql.dropWhile isSpace)) = false) :
    validate sql ≠ [] := by
  by_cases hs : (pyStrip sql).isEmpty
  · simp [validate, hs, emptyMsg]
  · have hpre : pyStrip sql <+: sql.dropWhile isSpace := pyStrip_prefix_dropWhile sql
    have hmap : lowerStr (pyStrip sql) <+: lowerStr (sql.dropWhile isSpace) :=
      List.IsPrefix.map Char.toLower hpre
    have hc1 : (str "select").isPrefixOf (lowerStr (pyStrip sql)) = false := by
      rw [← Bool.not_eq_true]
      intro hcon
      have h2 := (List.isPrefixOf_iff_prefix.mp hcon).trans hmap
      rw [← List.isPrefixOf_iff_prefix] at h2
      rw [h2] at hsel
      exact absurd hsel (by decide)
    have hc2 : (str "with").isPrefixOf (lowerStr (pyStrip sql)) = false := by
      rw [← Bool.not_eq_true]
      intro hcon
      have h2 := (List.isPrefixOf_iff_prefix.mp hcon).trans hmap
      rw [← List.isPrefixOf_iff_prefix] at h2
      rw [h2] at hwith
      exact absurd hwith (by decide)
    intro heq
    simp only [validate] at heq
    rw [if_neg (by simpa using hs)] at heq
    rw [hc1, hc2] at heq
    simp at heq

/-- C7 witness: `DELETE FROM accounts` begins with neither keyword and is
rejected. -/
theorem validate_requires_select_witness :
    (str "select").isPrefixOf (lowerStr ((str "DELETE FROM accounts").dropWhile isSpace)) = false ∧
    (str "with").isPrefixOf (lowerStr ((str "DELETE FROM accounts").dropWhile isSpace)) = false ∧
    validate (str "DELETE FROM accounts") ≠ [] :=
  ⟨by decide, by decide, validate_requires_select _ (by decide) (by decide)⟩

theorem deny_kw_facts : ∀ kw ∈ _DENY_KEYWORDS, kw ≠ [] ∧
    isSpace (kw.headD ' ') = false ∧ isSpace (kw.getLastD ' ') = false := by decide

theorem validate_ne_nil_of_denyFound (sql : Str) (h1 : pyStrip sql ≠ [])
    (h2 : denyFound (pyStrip sql) = true) : validate sql ≠ [] := by
  intro heq
  simp only [validate] at heq
  rw [if_neg (by simpa [List.isEmpty_iff] using h1)] at heq
  rw [h2] at heq
  simp at heq

/-- C1: any SQL string containing a deny-listed keyword — matched
case-insensitively, with a word boundary on each side, against the fixed
deny set `_DENY_KEYWORDS` — receives a non-empty violation list from
`validate`.  The containment is expressed by the decomposition
`a ++ kw' ++ b` where `kw'` lowercases to the keyword and the adjacent
characters (if any) are non-word characters. -/
theorem validate_flags_deny_keyword (a kw' b kw : Str)
    (hkw : kw ∈ _DENY_KEYWORDS) (hlow : kw'.map Char.toLower = kw)
    (ha : a = [] ∨ isWordChar (a.getLastD ' ') = false)
    (hb : b = [] ∨ isWordChar (b.headD ' ') = false) :
    validate (a ++ kw' ++ b) ≠ [] := by
  obtain ⟨hkne, hkh, hkl⟩ := deny_kw_facts kw hkw
  have hk'ne : kw' ≠ [] := by
    intro h
    rw [h] at hlow
    exact hkne (by simpa using hlow.symm)
  have hsp : Char.toLower ' ' = ' ' := by decide
  have hhead : isSpace (kw'.headD ' ') = false := by
    rw [← Bool.not_eq_true]
    intro hcon
    have h2 := isSpace_toLower hcon
    have h3 : Char.toLower (kw'.headD ' ') = kw.headD ' ' := by
      rw [← List.headD_map Char.toLower kw' ' ', hsp, hlow]
    rw [h3] at h2
    rw [h2] at hkh
    exact absurd hkh (by decide)
  have hlast : isSpace (kw'.getLastD ' ') = false := by
    rw [← Bool.not_eq_true]
    intro hcon
    have h2 := isSpace_toLower hcon
    have h3 : Char.toLower (kw'.getLastD ' ') = kw.getLastD ' ' := by
      rw [← List.getLastD_map Char.toLower kw' ' ', hsp, hlow]
    rw [h3] at h2
    rw [h2] at hkl
    exact absurd hkl (by decide)
  have hdec := pyStrip_append_decomp a kw' b hk'ne hhead hlast
  have hAbd : a.dropWhile isSpace = [] ∨
      isWordChar ((a.dropWhile isSpace).getLastD ' ') = false := by
    rcases ha with rfl | ha
    · left; rfl
    · by_cases hAe : a.dropWhile isSpace = []
      · left; exact hAe
      · right
        rw [← getLastD_of_suffix (List.dropWhile_suffix isSpace) hAe ' ']
        exact ha
  have hBhd : (b.reverse.dropWhile isSpace).reverse = [] ∨
      isWordChar (((b.reverse.dropWhile isSpace).reverse).headD ' ') = false := by
    rcases hb with rfl | hb
    · left; rfl
    · by_cases hBe : (b.reverse.dropWhile isSpace).reverse = []
      · left; exact hBe
      · right
        have hpre : (b.reverse.dropWhile isSpace).reverse <+: b := by
          have h : b.reverse.dropWhile isSpace <:+ b.reverse := List.dropWhile_suffix _
          have h2 : (b.reverse.dropWhile isSpace).reverse <+: b.reverse.reverse :=
            List.reverse_prefix.mpr (by simpa using h)
          simpa using h2
        rw [← headD_of_prefix hpre hBe ' ']
        exact hb
  have hklen : kw'.length = kw.length := by rw [← hlow]; simp
  have hmatch : denyMatchHere (kw' ++ (b.reverse.dropWhile isSpace).reverse) = true := by
    rw [denyMatchHere, List.any_eq_true]
    refine ⟨kw, hkw, ?_⟩
    rw [Bool.and_eq_true]
    constructor
    · rw [lowerPrefixEq, Bool.and_eq_true]
      constructor
      · simp only [List.length_append, decide_eq_true_eq]
        omega
      · rw [List.take_left' hklen, hlow]
        simp
    · rw [List.drop_left' hklen]
      rcases hBhd with hBe | hBw
      · rw [hBe]
        rfl
      · cases hBc : (b.reverse.dropWhile isSpace).reverse with
        | nil => rfl
        | cons c t =>
          rw [hBc] at hBw
          simp only [List.headD_cons] at hBw
          simp [boundaryHead, hBw]
  have hfound : denyFound (pyStrip (a ++ kw' ++ b)) = true := by
    rw [hdec, List.append_assoc]
    exact searchFound_append denyMatchHere _ _ hAbd hmatch
  have hne : pyStrip (a ++ kw' ++ b) ≠ [] := by
    rw [hdec]
    intro h
    simp only [List.append_eq_nil] at h
    exact hk'ne h.1.2
  exact validate_ne_nil_of_denyFound _ hne hfound

/-- C1 witness: `DROP` inside `DROP table x` lowercases to the deny keyword
`drop` with word boundaries on both sides, and `validate` rejects it. -/
theorem validate_flags_deny_keyword_witness :
    str "drop" ∈ _DENY_KEYWORDS ∧ (str "DROP").map Char.toLower = str "drop" ∧
    validate (str "" ++ str "DROP" ++ str " table x") ≠ [] :=
  ⟨by decide, by decide,
    validate_flags_deny_keyword (str "") (str "DROP") (str " table x") (str "drop")
      (by decide) (by decide) (Or.inl rfl) (Or.inr (by decide))⟩

theorem limitFound_append (x ds : Str) (hne : ds ≠ [])
    (hd : ∀ c ∈ ds, c.isDigit = true) :
    limitFound (x ++ str " LIMIT " ++ ds) = true := by
  obtain ⟨d, ds', rfl⟩ := List.exists_cons_of_ne_nil hne
  have hd0 : d.isDigit = true := hd d (by simp)
  have hshape : x ++ str " LIMIT " ++ (d :: ds')
      = (x ++ [' ']) ++ ('L' :: 'I' :: 'M' :: 'I' :: 'T' :: ' ' :: d :: ds') := by
    have h0 : str " LIMIT " = ' ' :: 'L' :: 'I' :: 'M' :: 'I' :: 'T' :: [' '] := by decide
    rw [h0]
    simp
  rw [limitFound, hshape]
  apply searchFound_append
  · right
    rw [List.getLastD_concat]
    decide
  · rw [limitMatchHere, Bool.and_eq_true]
    constructor
    · rw [lowerPrefixEq, Bool.and_eq_true]
      refine ⟨?_, ?_⟩
      · have h5 : (str "limit").length = 5 := rfl
        simp only [decide_eq_true_eq, List.length_cons, h5]
        omega
      have htake : (('L' :: 'I' :: 'M' :: 'I' :: 'T' :: ' ' :: d :: ds').take ((str "limit").length))
          = ['L','I','M','I','T'] := rfl
      rw [htake]
      decide
    · have hdrop : (('L' :: 'I' :: 'M' :: 'I' :: 'T' :: ' ' :: d :: ds').drop 5) = ' ' :: d :: ds' := rfl
      rw [hdrop]
      simp only [spacesThen]
      rw [List.dropWhile_cons_of_neg (by simp [isDigit_not_space hd0])]
      have hnil : (d :: ds').dropWhile Char.isDigit = [] :=
        List.dropWhile_eq_nil_iff.mpr hd
      simp [hnil, hd0, boundaryHead, isSpace]

theorem topFound_top_paren (ds z : Str) (hne : ds ≠ [])
    (hd : ∀ c ∈ ds, c.isDigit = true) :
    topFound (str "SELECT TOP (" ++ ds ++ z) = true := by
  obtain ⟨d, ds', rfl⟩ := List.exists_cons_of_ne_nil hne
  have hd0 : d.isDigit = true := hd d (by simp)
  have hshape : str "SELECT TOP (" ++ (d :: ds') ++ z
      = (str "SELECT ") ++ ('T' :: 'O' :: 'P' :: ' ' :: '(' :: d :: (ds' ++ z)) := by
    have h0 : str "SELECT TOP (" = str "SELECT " ++ ('T' :: 'O' :: 'P' :: ' ' :: ['(']) := by
      decide
    rw [h0]
    simp
  rw [topFound, hshape]
  apply searchFound_append
  · right
    decide
  · rw [topMatchHere, Bool.and_eq_true]
    constructor
    · rw [lowerPrefixEq, Bool.and_eq_true]
      refine ⟨?_, ?_⟩
      · have h3 : (str "top").length = 3 := rfl
        simp only [decide_eq_true_eq, List.length_cons, List.length_append, h3]
        omega
      have htake : (('T' :: 'O' :: 'P' :: ' ' :: '(' :: d :: (ds' ++ z)).take ((str "top").length))
          = ['T','O','P'] := rfl
      rw [htake]
      decide
    · have hdrop : (('T' :: 'O' :: 'P' :: ' ' :: '(' :: d :: (ds' ++ z)).drop 3)
          = ' ' :: '(' :: d :: (ds' ++ z) := rfl
      rw [hdrop]
      simp only [spacesThen]
      simp [headIsDigit, hd0, isDigit_not_space hd0, isSpace]
      rw [List.dropWhile_cons_of_neg (by simp [isDigit_not_space hd0] : ¬ isSpace d = true)]
      simp [hd0]

theorem pyStrip_eq_self (s : Str) (hne : s ≠ [])
    (hh : isSpace (s.headD ' ') = false) (hl : isSpace (s.getLastD ' ') = false) :
    pyStrip s = s := by
  obtain ⟨c, t, rfl⟩ := List.exists_cons_of_ne_nil hne
  unfold pyStrip
  rw [List.dropWhile_cons_of_neg (by simpa using hh)]
  have hrne : (c :: t).reverse ≠ [] := by simp
  obtain ⟨c2, t2, hrev⟩ := List.exists_cons_of_ne_nil hrne
  have hc2 : c2 = (c :: t).getLastD ' ' := by
    have h1 : (c :: t).reverse.headD ' ' = c2 := by rw [hrev]; rfl
    rw [List.headD_eq_head?_getD, List.head?_reverse, ← List.getLastD_eq_getLast?] at h1
    exact h1.symm
  have hc2s : isSpace c2 = false := by rw [hc2]; exact hl
  rw [hrev, List.dropWhile_cons_of_neg (by simp [hc2s]), ← hrev, List.reverse_reverse]

theorem rstripSemi_eq_self (s : Str) (hne : s ≠ [])
    (hl : ((s.getLastD ' ') == ';') = false) : rstripSemi s = s := by
  unfold rstripSemi
  have hrne : s.reverse ≠ [] := by simpa using hne
  obtain ⟨c2, t2, hrev⟩ := List.exists_cons_of_ne_nil hrne
  have hc2 : c2 = s.getLastD ' ' := by
    have h1 : s.reverse.headD ' ' = c2 := by rw [hrev]; rfl
    rw [List.headD_eq_head?_getD, List.head?_reverse, ← List.getLastD_eq_getLast?] at h1
    exact h1.symm
  have hc2s : (c2 == ';') = false := by rw [hc2]; exact hl
  rw [hrev, List.dropWhile_cons_of_neg (by simp [hc2s]), ← hrev, List.reverse_reverse]

theorem rstripSemi_getLast_ne (s : Str) (hne : rstripSemi s ≠ []) :
    (((rstripSemi s).getLastD ' ') == ';') = false := by
  have hune : s.reverse.dropWhile (fun c => c == ';') ≠ [] := by
    intro h
    exact hne (by simp [rstripSemi, h])
  have h1 : (rstripSemi s).getLastD ' '
      = (s.reverse.dropWhile (fun c => c == ';')).headD ' ' := by
    rw [rstripSemi, List.getLastD_eq_getLast?, List.getLast?_reverse,
      ← List.headD_eq_head?_getD]
  rw [h1]
  exact headD_dropWhile_false _ _ ' ' hune

theorem headD_rstripSemi_pyStrip (sql : Str) (hne : rstripSemi (pyStrip sql) ≠ []) :
    isSpace ((rstripSemi (pyStrip sql)).headD ' ') = false := by
  have hp : rstripSemi (pyStrip sql) <+: pyStrip sql := rstripSemi_prefix _
  have hpne : pyStrip sql ≠ [] := fun h => hne (by rw [h]; rfl)
  rw [← headD_of_prefix hp hne ' ']
  exact headD_pyStrip_not_space sql hpne

theorem getLastD_append_right (x y : Str) (hy : y ≠ []) (d : Char) :
    (x ++ y).getLastD d = y.getLastD d := by
  rw [List.getLastD_eq_getLast?, List.getLast?_append_of_ne_nil _ hy,
    ← List.getLastD_eq_getLast?]

theorem headD_append_left (x y : Str) (hx : x ≠ []) (d : Char) :
    (x ++ y).headD d = x.headD d := by
  rw [List.headD_eq_head?_getD, List.head?_append_of_ne_nil _ hx,
    ← List.headD_eq_head?_getD]

/-- Dissection of a successful `_select_re` match on a statement whose last
character is not whitespace: the text after the match is non-empty, starts
with a non-space character, and ends with the statement's last character. -/
theorem drop_selectMatchEnd (s : Str) (e : Nat) (h : selectMatchEnd s = some e)
    (hl : isSpace (s.getLastD ' ') = false) :
    s.drop e = (s.drop ((s.takeWhile isSpace).length + 6)).dropWhile isSpace ∧
    s.drop e ≠ [] ∧ isSpace ((s.drop e).headD ' ') = false ∧
    (s.drop e).getLastD ' ' = s.getLastD ' ' := by
  simp only [selectMatchEnd] at h
  split at h
  · split at h
    · exact absurd h (by simp)
    · next hws =>
      rw [Option.some_inj] at h
      subst h
      have hwpos : 1 ≤ (((s.drop (s.takeWhile isSpace).length).drop 6).takeWhile isSpace).length :=
        Nat.pos_of_ne_zero (by simpa using hws)
      set lead := (s.takeWhile isSpace).length with hlead
      set after := s.drop (lead + 6) with hafter
      set ws := ((s.drop lead).drop 6).takeWhile isSpace |>.length with hws2
      have hdd : (s.drop lead).drop 6 = after := by
        rw [hafter, List.drop_drop]
      have hkey : s.drop (lead + 6 + ws) = after.dropWhile isSpace := by
        have h1 : s.drop (lead + 6 + ws) = after.drop ws := by
          rw [hafter, List.drop_drop]
        rw [h1]
        have h2 : after.drop ws = after.drop (after.takeWhile isSpace).length := by
          rw [hws2, hdd]
        have h3 : (after.takeWhile isSpace ++ after.dropWhile isSpace).drop
            (after.takeWhile isSpace).length = after.dropWhile isSpace := List.drop_left _ _
        rw [List.takeWhile_append_dropWhile] at h3
        rw [h2, h3]
      have haftne : after ≠ [] := by
        intro h0
        rw [hws2, hdd, h0] at hwpos
        simp at hwpos
      have haftsuf : after <:+ s := by
        rw [hafter]
        exact List.drop_suffix _ _
      have hlast_aft : after.getLastD ' ' = s.getLastD ' ' :=
        (getLastD_of_suffix haftsuf haftne ' ').symm
      have hr2ne : after.dropWhile isSpace ≠ [] := by
        intro h0
        have hall : ∀ x ∈ after, isSpace x = true := by
          intro x hx
          exact List.dropWhile_eq_nil_iff.mp h0 x hx
        have hmem : after.getLastD ' ' ∈ ' ' :: after := List.getLastD_mem_cons after ' '
        rcases List.mem_cons.mp hmem with h2 | h2
        · rw [hlast_aft] at h2
          rw [h2] at hl
          exact absurd hl (by decide)
        · have := hall _ h2
          rw [hlast_aft] at this
          rw [this] at hl
          exact absurd hl (by decide)
      refine ⟨by rw [hkey], by rw [hkey]; exact hr2ne, ?_, ?_⟩
      · rw [hkey]
        exact headD_dropWhile_false isSpace after ' ' hr2ne
      · rw [hkey]
        rw [← hlast_aft]
        exact (getLastD_of_suffix (List.dropWhile_suffix isSpace) hr2ne ' ').symm
  · exact absurd h (by simp)

/-- C5 (amended): for the embedded (sqlite) backend, `apply_row_limit`
always leaves the statement with a LIMIT clause — appending
` LIMIT max_rows` to the normalised statement whenever none is present;
for the enterprise (sqlserver) backend it injects `TOP (max_rows)` when the
normalised statement begins with `select` followed by whitespace (the
`_select_re` match), replacing that match.  Statements without a leading
SELECT are returned unchanged on the sqlserver backend (see the
counterexample `apply_row_limit_with_cte_unchanged`). -/
theorem apply_row_limit_injects (sql : Str) (n : Nat) :
    limitFound (apply_row_limit sql (str "sqlite") n) = true ∧
    (limitFound (rstripSemi (pyStrip sql)) = false →
      apply_row_limit sql (str "sqlite") n
        = rstripSemi (pyStrip sql) ++ str " LIMIT " ++ natChars n) ∧
    (∀ e, topFound (rstripSemi (pyStrip sql)) = false →
      selectMatchEnd (rstripSemi (pyStrip sql)) = some e →
      apply_row_limit sql sqlserverStr n
          = str "SELECT TOP (" ++ natChars n ++ str ") "
              ++ (rstripSemi (pyStrip sql)).drop e ∧
      topFound (apply_row_limit sql sqlserverStr n) = true) := by
  have hbs : ((str "sqlite") == sqlserverStr) = false := by decide
  have hss : (sqlserverStr == sqlserverStr) = true := by decide
  refine ⟨?_, ?_, ?_⟩
  · by_cases hl : limitFound (rstripSemi (pyStrip sql)) = true
    · simp [apply_row_limit, rowLimitCore, hbs, hl]
    · have hl' : limitFound (rstripSemi (pyStrip sql)) = false := by simpa using hl
      simp only [apply_row_limit, rowLimitCore, hbs, hl', Bool.false_eq_true, if_false]
      exact limitFound_append _ _ (natChars_ne_nil n) (natChars_digits n)
  · intro h
    simp [apply_row_limit, rowLimitCore, hbs, h]
  · intro e htop hsel
    constructor
    · simp [apply_row_limit, rowLimitCore, hss, htop, subSelectTop, hsel]
    · simp only [apply_row_limit, rowLimitCore, hss, htop, Bool.false_eq_true, if_false,
        if_true, subSelectTop, hsel]
      rw [List.append_assoc]
      exact topFound_top_paren _ _ (natChars_ne_nil n) (natChars_digits n)

/-- C5 witness: the end-to-end scenario —
`apply_row_limit("SELECT col FROM t", "sqlite", 10) = "SELECT col FROM t LIMIT 10"`. -/
theorem apply_row_limit_injects_witness :
    limitFound (rstripSemi (pyStrip (str "SELECT col FROM t"))) = false ∧
    apply_row_limit (str "SELECT col FROM t") (str "sqlite") 10
      = str "SELECT col FROM t LIMIT 10" := by
  have h := (apply_row_limit_injects (str "SELECT col FROM t") 10).2.1 (by decide)
  exact ⟨by decide, by rw [h]; decide⟩

/-- C5 counterexample: a statement without a leading SELECT (a `WITH` CTE)
contains no backend-appropriate row-limiting clause, yet `apply_row_limit`
on the sqlserver backend returns it unchanged — no clause is injected, so
the claim as stated (injection for *every* clause-free statement) is
false. -/
theorem apply_row_limit_with_cte_unchanged :
    topFound (str "WITH t AS (SELECT 1) SELECT a FROM t") = false ∧
    apply_row_limit (str "WITH t AS (SELECT 1) SELECT a FROM t") sqlserverStr 10
      = str "WITH t AS (SELECT 1) SELECT a FROM t" ∧
    topFound (apply_row_limit (str "WITH t AS (SELECT 1) SELECT a FROM t") sqlserverStr 10)
      = false := by
  refine ⟨by decide, by decide, by decide⟩

theorem getLastD_mem_of_ne_nil (l : Str) (hne : l ≠ []) (d : Char) : l.getLastD d ∈ l := by
  rcases List.eq_nil_or_concat l with rfl | ⟨ys, a, rfl⟩
  · exact absurd rfl hne
  · simp only [List.concat_eq_append, List.getLastD_concat]
    simp

/-- C6 (amended): `apply_row_limit` is idempotent on every input whose
normalised statement `s = sql.strip().rstrip(";")` is non-empty and does
not end in whitespace.  (When stripping the trailing semicolons exposes
trailing whitespace — e.g. `"select 1 limit 2 ; ;"` — a second application
normalises further and idempotence fails; see
`apply_row_limit_not_idempotent`.) -/
theorem apply_row_limit_idempotent_amended (sql backend : Str) (n : Nat)
    (h1 : rstripSemi (pyStrip sql) ≠ [])
    (h2 : isSpace ((rstripSemi (pyStrip sql)).getLastD ' ') = false) :
    apply_row_limit (apply_row_limit sql backend n) backend n
      = apply_row_limit sql backend n := by
  have hhead : isSpace ((rstripSemi (pyStrip sql)).headD ' ') = false :=
    headD_rstripSemi_pyStrip sql h1
  have hsemi : (((rstripSemi (pyStrip sql)).getLastD ' ') == ';') = false :=
    rstripSemi_getLast_ne _ h1
  have hnorm : rstripSemi (pyStrip (rstripSemi (pyStrip sql))) = rstripSemi (pyStrip sql) := by
    rw [pyStrip_eq_self _ h1 hhead h2, rstripSemi_eq_self _ h1 hsemi]
  set s := rstripSemi (pyStrip sql) with hs
  have hfirst : apply_row_limit sql backend n = rowLimitCore backend n s := rfl
  rw [hfirst]
  by_cases hb : (backend == sqlserverStr) = true
  · by_cases htop : topFound s = true
    · have hf : rowLimitCore backend n s = s := by simp [rowLimitCore, hb, htop]
      rw [hf, apply_row_limit, hnorm]
      simp [rowLimitCore, hb, htop]
    · have htop' : topFound s = false := by simpa using htop
      cases hsel : selectMatchEnd s with
      | none =>
        have hf : rowLimitCore backend n s = s := by
          simp [rowLimitCore, hb, htop', subSelectTop, hsel]
        rw [hf, apply_row_limit, hnorm]
        simp [rowLimitCore, hb, htop', subSelectTop, hsel]
      | some e =>
        obtain ⟨_, hr2ne, _, hr2l⟩ := drop_selectMatchEnd s e hsel h2
        have hf : rowLimitCore backend n s
            = str "SELECT TOP (" ++ natChars n ++ str ") " ++ s.drop e := by
          simp [rowLimitCore, hb, htop', subSelectTop, hsel]
        set f := str "SELECT TOP (" ++ natChars n ++ str ") " ++ s.drop e with hfdef
        have hfne : f ≠ [] := by
          rw [hfdef]
          exact List.append_ne_nil_of_left_ne_nil
            (List.append_ne_nil_of_left_ne_nil
              (List.append_ne_nil_of_left_ne_nil (by decide) _) _) _
        have hfhead : f.headD ' ' = 'S' := by
          rw [hfdef,
            headD_append_left _ _ (List.append_ne_nil_of_left_ne_nil
              (List.append_ne_nil_of_left_ne_nil (by decide) _) _),
            headD_append_left _ _ (List.append_ne_nil_of_left_ne_nil (by decide) _),
            headD_append_left _ _ (by decide)]
          decide
        have hfh : isSpace (f.headD ' ') = false := by rw [hfhead]; decide
        have hfl : f.getLastD ' ' = s.getLastD ' ' := by
          rw [hfdef, getLastD_append_right _ _ hr2ne, hr2l]
        have hfls : isSpace (f.getLastD ' ') = false := by rw [hfl]; exact h2
        have hfsemi : ((f.getLastD ' ') == ';') = false := by rw [hfl]; exact hsemi
        have hnf : rstripSemi (pyStrip f) = f := by
          rw [pyStrip_eq_self f hfne hfh hfls, rstripSemi_eq_self f hfne hfsemi]
        have htopf : topFound f = true := by
          rw [hfdef, List.append_assoc]
          exact topFound_top_paren _ _ (natChars_ne_nil n) (natChars_digits n)
        rw [hf, apply_row_limit, hnf]
        simp [rowLimitCore, hb, htopf]
  · have hb' : (backend == sqlserverStr) = false := by simpa using hb
    by_cases hlim : limitFound s = true
    · have hf : rowLimitCore backend n s = s := by simp [rowLimitCore, hb', hlim]
      rw [hf, apply_row_limit, hnorm]
      simp [rowLimitCore, hb', hlim]
    · have hlim' : limitFound s = false := by simpa using hlim
      have hf : rowLimitCore backend n s = s ++ str " LIMIT " ++ natChars n := by
        simp [rowLimitCore, hb', hlim']
      set f := s ++ str " LIMIT " ++ natChars n with hfdef
      have hfne : f ≠ [] := by
        rw [hfdef]
        exact List.append_ne_nil_of_right_ne_nil _ (natChars_ne_nil n)
      have hfhead : f.headD ' ' = s.headD ' ' := by
        rw [hfdef, headD_append_left _ _ (List.append_ne_nil_of_left_ne_nil h1 _),
          headD_append_left _ _ h1]
      have hfh : isSpace (f.headD ' ') = false := by rw [hfhead]; exact hhead
      have hld : ((natChars n).getLastD ' ').isDigit = true :=
        natChars_digits n _ (getLastD_mem_of_ne_nil _ (natChars_ne_nil n) ' ')
      have hfl : f.getLastD ' ' = (natChars n).getLastD ' ' := by
        rw [hfdef, getLastD_append_right _ _ (natChars_ne_nil n)]
      have hfls : isSpace (f.getLastD ' ') = false := by
        rw [hfl]; exact isDigit_not_space hld
      have hfsemi : ((f.getLastD ' ') == ';') = false := by
        rw [hfl]; exact isDigit_ne_semi hld
      have hnf : rstripSemi (pyStrip f) = f := by
        rw [pyStrip_eq_self f hfne hfh hfls, rstripSemi_eq_self f hfne hfsemi]
      have hlimf : limitFound f = true := by
        rw [hfdef]
        exact limitFound_append _ _ (natChars_ne_nil n) (natChars_digits n)
      rw [hf, apply_row_limit, hnf]
      simp [rowLimitCore, hb', hlimf]

/-- C6 witness: idempotence on a clean statement (`select 1`, sqlite,
cap 5). -/
theorem apply_row_limit_idempotent_witness :
    rstripSemi (pyStrip (str "select 1")) ≠ [] ∧
    isSpace ((rstripSemi (pyStrip (str "select 1"))).getLastD ' ') = false ∧
    apply_row_limit (apply_row_limit (str "select 1") (str "sqlite") 5) (str "sqlite") 5
      = apply_row_limit (str "select 1") (str "sqlite") 5 :=
  ⟨by decide, by decide,
    apply_row_limit_idempotent_amended (str "select 1") (str "sqlite") 5
      (by decide) (by decide)⟩

/-- C6 counterexample: `"select 1 limit 2 ; ;"` already carries a LIMIT
clause, so the first application only normalises it to
`"select 1 limit 2 ; "`; the second application strips further (the space
newly exposed before the remaining semicolon), so the results differ and
idempotence fails as stated. -/
theorem apply_row_limit_not_idempotent :
    apply_row_limit (apply_row_limit (str "select 1 limit 2 ; ;") (str "sqlite") 5)
        (str "sqlite") 5
      ≠ apply_row_limit (str "select 1 limit 2 ; ;") (str "sqlite") 5 := by
  decide

theorem dataQaLoop_step_ok (backend : Str) (maxRetry maxRows : Nat)
    (execErr : Nat → Option Str) (triage : Nat → TriageDecision) (fuel : Nat)
    (plan : SqlPlan) (rep : SafetyReport) (attempt calls : Nat) (log : List Str)
    (hx : execErr calls = none) :
    dataQaLoop backend maxRetry maxRows execErr triage (fuel + 1) plan rep attempt calls log
      = ⟨.ok, calls + 1, log ++ [selectSafeSql backend rep], attempt⟩ := by
  simp [dataQaLoop, hx]

theorem dataQaLoop_step_maxed (backend : Str) (maxRetry maxRows : Nat)
    (execErr : Nat → Option Str) (triage : Nat → TriageDecision) (fuel : Nat)
    (plan : SqlPlan) (rep : SafetyReport) (attempt calls : Nat) (log : List Str) (m : Str)
    (hx : execErr calls = some m) (hm : maxRetry ≤ attempt + 1) :
    dataQaLoop backend maxRetry maxRows execErr triage (fuel + 1) plan rep attempt calls log
      = ⟨.error, calls + 1, log ++ [selectSafeSql backend rep], attempt + 1⟩ := by
  simp [dataQaLoop, hx, hm]

theorem dataQaLoop_step_retry_safe (backend : Str) (maxRetry maxRows : Nat)
    (execErr : Nat → Option Str) (triage : Nat → TriageDecision) (fuel : Nat)
    (plan : SqlPlan) (rep : SafetyReport) (attempt calls : Nat) (log : List Str) (m : Str)
    (hx : execErr calls = some m) (hm : ¬ maxRetry ≤ attempt + 1)
    (ha : (triage calls).action = .retryWithPatch)
    (hsafe : (safetyRun backend maxRows (applyPatch plan (triage calls))).is_safe = true) :
    dataQaLoop backend maxRetry maxRows execErr triage (fuel + 1) plan rep attempt calls log
      = dataQaLoop backend maxRetry maxRows execErr triage fuel
          (applyPatch plan (triage calls))
          (safetyRun backend maxRows (applyPatch plan (triage calls)))
          (attempt + 1) (calls + 1) (log ++ [selectSafeSql backend rep]) := by
  simp [dataQaLoop, hx, hm, ha, hsafe]

theorem dataQaLoop_step_retry_blocked (backend : Str) (maxRetry maxRows : Nat)
    (execErr : Nat → Option Str) (triage : Nat → TriageDecision) (fuel : Nat)
    (plan : SqlPlan) (rep : SafetyReport) (attempt calls : Nat) (log : List Str) (m : Str)
    (hx : execErr calls = some m) (hm : ¬ maxRetry ≤ attempt + 1)
    (ha : (triage calls).action = .retryWithPatch)
    (hsafe : (safetyRun backend maxRows (applyPatch plan (triage calls))).is_safe = false) :
    dataQaLoop backend maxRetry maxRows execErr triage (fuel + 1) plan rep attempt calls log
      = ⟨.blocked, calls + 1, log ++ [selectSafeSql backend rep], attempt + 1⟩ := by
  simp [dataQaLoop, hx, hm, ha, hsafe]

theorem dataQaLoop_step_ask (backend : Str) (maxRetry maxRows : Nat)
    (execErr : Nat → Option Str) (triage : Nat → TriageDecision) (fuel : Nat)
    (plan : SqlPlan) (rep : SafetyReport) (attempt calls : Nat) (log : List Str) (m : Str)
    (hx : execErr calls = some m) (hm : ¬ maxRetry ≤ attempt + 1)
    (ha : (triage calls).action = .askClarification) :
    dataQaLoop backend maxRetry maxRows execErr triage (fuel + 1) plan rep attempt calls log
      = ⟨.needClarification, calls + 1, log ++ [selectSafeSql backend rep], attempt + 1⟩ := by
  simp [dataQaLoop, hx, hm, ha]

theorem dataQaLoop_step_stop (backend : Str) (maxRetry maxRows : Nat)
    (execErr : Nat → Option Str) (triage : Nat → TriageDecision) (fuel : Nat)
    (plan : SqlPlan) (rep : SafetyReport) (attempt calls : Nat) (log : List Str) (m : Str)
    (hx : execErr calls = some m) (hm : ¬ maxRetry ≤ attempt + 1)
    (ha : (triage calls).action = .stop) :
    dataQaLoop backend maxRetry maxRows execErr triage (fuel + 1) plan rep attempt calls log
      = ⟨.error, calls + 1, log ++ [selectSafeSql backend rep], attempt + 1⟩ := by
  simp [dataQaLoop, hx, hm, ha]

theorem dataQaLoop_calls_le (backend : Str) (maxRetry maxRows : Nat)
    (execErr : Nat → Option Str) (triage : Nat → TriageDecision) :
    ∀ (fuel : Nat) (plan : SqlPlan) (rep : SafetyReport) (attempt calls : Nat)
      (log : List Str), attempt < maxRetry →
      (dataQaLoop backend maxRetry maxRows execErr triage fuel plan rep attempt
        calls log).execCalls ≤ calls + (maxRetry - attempt) := by
  intro fuel
  induction fuel with
  | zero =>
    intro plan rep attempt calls log h
    simp only [dataQaLoop]
    omega
  | succ fuel ih =>
    intro plan rep attempt calls log h
    cases hx : execErr calls with
    | none =>
      rw [dataQaLoop_step_ok _ _ _ _ _ _ _ _ _ _ _ hx]
      simp
      omega
    | some m =>
      by_cases hm : maxRetry ≤ attempt + 1
      · rw [dataQaLoop_step_maxed _ _ _ _ _ _ _ _ _ _ _ _ hx hm]
        simp
        omega
      · cases ha : (triage calls).action with
        | retryWithPatch =>
          cases hsafe : (safetyRun backend maxRows (applyPatch plan (triage calls))).is_safe with
          | true =>
            rw [dataQaLoop_step_retry_safe _ _ _ _ _ _ _ _ _ _ _ _ hx hm ha hsafe]
            have := ih (applyPatch plan (triage calls))
              (safetyRun backend maxRows (applyPatch plan (triage calls)))
              (attempt + 1) (calls + 1) (log ++ [selectSafeSql backend rep]) (by omega)
            omega
          | false =>
            rw [dataQaLoop_step_retry_blocked _ _ _ _ _ _ _ _ _ _ _ _ hx hm ha hsafe]
            simp
            omega
        | askClarification =>
          rw [dataQaLoop_step_ask _ _ _ _ _ _ _ _ _ _ _ _ hx hm ha]
          simp
          omega
        | stop =>
          rw [dataQaLoop_step_stop _ _ _ _ _ _ _ _ _ _ _ _ hx hm ha]
          simp
          omega

theorem dataQaLoop_allfail_attempts (backend : Str) (maxRetry maxRows : Nat)
    (execErr : Nat → Option Str) (triage : Nat → TriageDecision)
    (hfail : ∀ k, execErr k ≠ none) :
    ∀ (fuel : Nat) (plan : SqlPlan) (rep : SafetyReport) (attempt calls : Nat)
      (log : List Str),
      calls ≤ (dataQaLoop backend maxRetry maxRows execErr triage fuel plan rep attempt
        calls log).execCalls ∧
      (dataQaLoop backend maxRetry maxRows execErr triage fuel plan rep attempt
        calls log).attempts
        = attempt + ((dataQaLoop backend maxRetry maxRows execErr triage fuel plan rep
            attempt calls log).execCalls - calls) := by
  intro fuel
  induction fuel with
  | zero =>
    intro plan rep attempt calls log
    simp [dataQaLoop]
  | succ fuel ih =>
    intro plan rep attempt calls log
    cases hx : execErr calls with
    | none => exact absurd hx (hfail calls)
    | some m =>
      by_cases hm : maxRetry ≤ attempt + 1
      · rw [dataQaLoop_step_maxed _ _ _ _ _ _ _ _ _ _ _ _ hx hm]
        simp
      · cases ha : (triage calls).action with
        | retryWithPatch =>
          cases hsafe : (safetyRun backend maxRows (applyPatch plan (triage calls))).is_safe with
          | true =>
            rw [dataQaLoop_step_retry_safe _ _ _ _ _ _ _ _ _ _ _ _ hx hm ha hsafe]
            have := ih (applyPatch plan (triage calls))
              (safetyRun backend maxRows (applyPatch plan (triage calls)))
              (attempt + 1) (calls + 1) (log ++ [selectSafeSql backend rep])
            omega
          | false =>
            rw [dataQaLoop_step_retry_blocked _ _ _ _ _ _ _ _ _ _ _ _ hx hm ha hsafe]
            simp
        | askClarification =>
          rw [dataQaLoop_step_ask _ _ _ _ _ _ _ _ _ _ _ _ hx hm ha]
          simp
        | stop =>
          rw [dataQaLoop_step_stop _ _ _ _ _ _ _ _ _ _ _ _ hx hm ha]
          simp

theorem applyPatch_of_some (p : SqlPlan) (d : TriageDecision) (ps pl : Str)
    (h1 : d.patched_sql_server = some ps) (h2 : d.patched_sql_sqlite = some pl) :
    applyPatch p d = ⟨ps, pl⟩ := by
  simp [applyPatch, h1, h2]

theorem dataQaLoop_allfail_retry_exact (backend : Str) (maxRetry maxRows : Nat)
    (execErr : Nat → Option Str) (triage : Nat → TriageDecision)
    (hfail : ∀ k, execErr k ≠ none)
    (htr : ∀ k, alwaysSafePatch backend maxRows (triage k)) :
    ∀ (fuel : Nat) (plan : SqlPlan) (rep : SafetyReport) (attempt calls : Nat)
      (log : List Str), attempt < maxRetry → maxRetry - attempt ≤ fuel →
      (dataQaLoop backend maxRetry maxRows execErr triage fuel plan rep attempt
        calls log).status = .error ∧
      (dataQaLoop backend maxRetry maxRows execErr triage fuel plan rep attempt
        calls log).execCalls = calls + (maxRetry - attempt) ∧
      (dataQaLoop backend maxRetry maxRows execErr triage fuel plan rep attempt
        calls log).attempts = maxRetry := by
  intro fuel
  induction fuel with
  | zero =>
    intro plan rep attempt calls log h hf
    omega
  | succ fuel ih =>
    intro plan rep attempt calls log h hf
    cases hx : execErr calls with
    | none => exact absurd hx (hfail calls)
    | some m =>
      obtain ⟨ha, ps, pl, hps, hpl, hsafe⟩ := htr calls
      by_cases hm : maxRetry ≤ attempt + 1
      · rw [dataQaLoop_step_maxed _ _ _ _ _ _ _ _ _ _ _ _ hx hm]
        refine ⟨rfl, ?_, ?_⟩ <;> simp <;> omega
      · have hsafe2 : (safetyRun backend maxRows (applyPatch plan (triage calls))).is_safe
            = true := by
          rw [applyPatch_of_some plan (triage calls) ps pl hps hpl]
          exact hsafe
        rw [dataQaLoop_step_retry_safe _ _ _ _ _ _ _ _ _ _ _ _ hx hm ha hsafe2]
        have hrec := ih (applyPatch plan (triage calls))
          (safetyRun backend maxRows (applyPatch plan (triage calls)))
          (attempt + 1) (calls + 1) (log ++ [selectSafeSql backend rep])
          (by omega) (by omega)
        refine ⟨hrec.1, ?_, hrec.2.2⟩
        rw [hrec.2.1]
        omega

/-- C3 (amended): with an execution collaborator failing on every call and
`max_retry_attempts ≥ 1`, the DATA_QA path performs at most
`max_retry_attempts` execution attempts and its retry counter equals the
number of (failed) attempts regardless of the triage decisions; when the
triage collaborator always answers `RETRY_WITH_PATCH` with a policy-safe
patch, the run terminates in status `error` after exactly
`max_retry_attempts` attempts.  (Other triage actions end the run earlier:
see `dataQa_stop_after_one`.) -/
theorem dataQa_retry_bound (backend : Str) (maxRetry maxRows : Nat)
    (execErr : Nat → Option Str) (triage : Nat → TriageDecision) (plan : SqlPlan)
    (hmax : 1 ≤ maxRetry)
    (hsafe : (safetyRun backend maxRows plan).is_safe = true)
    (hfail : ∀ k, execErr k ≠ none) :
    ((dataQaRun backend maxRetry maxRows execErr triage plan).execCalls ≤ maxRetry ∧
     (dataQaRun backend maxRetry maxRows execErr triage plan).attempts
       = (dataQaRun backend maxRetry maxRows execErr triage plan).execCalls) ∧
    ((∀ k, alwaysSafePatch backend maxRows (triage k)) →
      (dataQaRun backend maxRetry maxRows execErr triage plan).status = .error ∧
      (dataQaRun backend maxRetry maxRows execErr triage plan).execCalls = maxRetry) := by
  have hrun : dataQaRun backend maxRetry maxRows execErr triage plan
      = dataQaLoop backend maxRetry maxRows execErr triage (maxRetry + 1) plan
          (safetyRun backend maxRows plan) 0 0 [] := by
    simp [dataQaRun, hsafe]
  constructor
  · constructor
    · rw [hrun]
      have := dataQaLoop_calls_le backend maxRetry maxRows execErr triage
        (maxRetry + 1) plan (safetyRun backend maxRows plan) 0 0 [] (by omega)
      omega
    · rw [hrun]
      have := dataQaLoop_allfail_attempts backend maxRetry maxRows execErr triage hfail
        (maxRetry + 1) plan (safetyRun backend maxRows plan) 0 0 []
      omega
  · intro htr
    rw [hrun]
    have := dataQaLoop_allfail_retry_exact backend maxRetry maxRows execErr triage
      hfail htr (maxRetry + 1) plan (safetyRun backend maxRows plan) 0 0 []
      (by omega) (by omega)
    exact ⟨this.1, by omega⟩

/-- C3 witness: two always-failing attempts with always-retry safe patches
end in `error` after exactly `max_retry_attempts = 2` execution calls. -/
theorem dataQa_retry_bound_witness :
    (dataQaRun (str "sqlite") 2 7 (fun _ => some (str "x"))
        (fun _ => ⟨.retryWithPatch, some (str "select 2"), some (str "select 2")⟩)
        ⟨str "select 1", str "select 1"⟩).status = .error ∧
    (dataQaRun (str "sqlite") 2 7 (fun _ => some (str "x"))
        (fun _ => ⟨.retryWithPatch, some (str "select 2"), some (str "select 2")⟩)
        ⟨str "select 1", str "select 1"⟩).execCalls = 2 :=
  (dataQa_retry_bound (str "sqlite") 2 7 (fun _ => some (str "x"))
      (fun _ => ⟨.retryWithPatch, some (str "select 2"), some (str "select 2")⟩)
      ⟨str "select 1", str "select 1"⟩ (by omega) (by decide)
      (fun k => by simp)).2
    (fun k => ⟨rfl, str "select 2", str "select 2", rfl, rfl, by decide⟩)

/-- C3 counterexample: with an always-failing executor but a triage that
answers `STOP`, the DATA_QA run (default `max_retry_attempts = 5`)
terminates in `error` after a single execution attempt — not after
exactly five — so the claim as stated is false. -/
theorem dataQa_stop_after_one :
    (dataQaRun (str "sqlite") 5 100 (fun _ => some (str "boom"))
        (fun _ => ⟨.stop, none, none⟩) ⟨str "select 1", str "select 1"⟩).execCalls = 1 ∧
    (dataQaRun (str "sqlite") 5 100 (fun _ => some (str "boom"))
        (fun _ => ⟨.stop, none, none⟩) ⟨str "select 1", str "select 1"⟩).status = .error ∧
    (1 : Nat) ≠ 5 := by
  refine ⟨by decide, by decide, by decide⟩

theorem reportSubLoop_step_retry_blocked (backend : Str) (maxRetry maxRows : Nat)
    (execErr : Nat → Option Str) (triage : Nat → TriageDecision) (specName : Str)
    (fuel : Nat) (plan : SqlPlan) (rep : SafetyReport) (attempt calls : Nat)
    (log : List Str)
    (hm : ¬ maxRetry ≤ attempt + 1)
    (ha : (triage calls).action = .retryWithPatch)
    (hsafe : (safetyRun backend maxRows (applyPatch plan (triage calls))).is_safe = false) :
    reportSubLoop backend maxRetry maxRows execErr triage specName (fuel + 1) plan rep
        attempt calls log
      = .done ⟨specName, some patchedBlockedMsg⟩ (calls + 1)
          (log ++ [selectSafeSql backend rep]) := by
  simp [reportSubLoop, hm, ha, hsafe]

theorem dataQaLoop_log_validated (backend : Str) (maxRetry maxRows : Nat)
    (execErr : Nat → Option Str) (triage : Nat → TriageDecision) :
    ∀ (fuel : Nat) (plan : SqlPlan) (rep : SafetyReport) (attempt calls : Nat)
      (log : List Str),
      rep = safetyRun backend maxRows plan → rep.is_safe = true →
      (∀ s ∈ log, fromValidatedPlan backend maxRows s) →
      ∀ s ∈ (dataQaLoop backend maxRetry maxRows execErr triage fuel plan rep attempt
        calls log).execSqls, fromValidatedPlan backend maxRows s := by
  intro fuel
  induction fuel with
  | zero =>
    intro plan rep attempt calls log hrep hsafe hlog
    simpa [dataQaLoop] using hlog
  | succ fuel ih =>
    intro plan rep attempt calls log hrep hsafe hlog
    have hlog' : ∀ s ∈ log ++ [selectSafeSql backend rep],
        fromValidatedPlan backend maxRows s := by
      intro s hsm
      rcases List.mem_append.mp hsm with h1 | h1
      · exact hlog s h1
      · simp only [List.mem_singleton] at h1
        subst h1
        exact ⟨plan, hrep ▸ hsafe, by rw [hrep]⟩
    cases hx : execErr calls with
    | none =>
      rw [dataQaLoop_step_ok _ _ _ _ _ _ _ _ _ _ _ hx]
      exact hlog'
    | some m =>
      by_cases hm : maxRetry ≤ attempt + 1
      · rw [dataQaLoop_step_maxed _ _ _ _ _ _ _ _ _ _ _ _ hx hm]
        exact hlog'
      · cases ha : (triage calls).action with
        | retryWithPatch =>
          cases hsafe2 : (safetyRun backend maxRows (applyPatch plan (triage calls))).is_safe with
          | true =>
            rw [dataQaLoop_step_retry_safe _ _ _ _ _ _ _ _ _ _ _ _ hx hm ha hsafe2]
            exact ih (applyPatch plan (triage calls))
              (safetyRun backend maxRows (applyPatch plan (triage calls)))
              (attempt + 1) (calls + 1) (log ++ [selectSafeSql backend rep])
              rfl hsafe2 hlog'
          | false =>
            rw [dataQaLoop_step_retry_blocked _ _ _ _ _ _ _ _ _ _ _ _ hx hm ha hsafe2]
            exact hlog'
        | askClarification =>
          rw [dataQaLoop_step_ask _ _ _ _ _ _ _ _ _ _ _ _ hx hm ha]
          exact hlog'
        | stop =>
          rw [dataQaLoop_step_stop _ _ _ _ _ _ _ _ _ _ _ _ hx hm ha]
          exact hlog'

/-- C2 (amended): every SQL string handed to the execution collaborator in
the DATA_QA retry loop comes from a plan that passed the safety check (so
after every `RETRY_WITH_PATCH` the patched plan is re-validated before any
execution); a patch the safety check rejects ends the DATA_QA run in
terminal `blocked` without executing the patch.  In the ANALYTICS_REPORT
per-sub-query path the rejected patch likewise ends the sub-query without
executing the patch, but with an `executed` entry whose error field is
`Patched SQL blocked by policy` — the report run continues instead of
terminating `blocked` (see `report_unsafe_patch_not_blocked`). -/
theorem patched_sql_revalidated (backend : Str) (maxRetry maxRows : Nat)
    (execErr : Nat → Option Str) (triage : Nat → TriageDecision) :
    (∀ (plan : SqlPlan),
      ∀ s ∈ (dataQaRun backend maxRetry maxRows execErr triage plan).execSqls,
        fromValidatedPlan backend maxRows s) ∧
    (∀ (fuel : Nat) (plan : SqlPlan) (rep : SafetyReport) (attempt calls : Nat)
      (log : List Str) (m : Str),
      execErr calls = some m →
      (triage calls).action = .retryWithPatch →
      (safetyRun backend maxRows (applyPatch plan (triage calls))).is_safe = false →
      attempt + 1 < maxRetry →
      dataQaLoop backend maxRetry maxRows execErr triage (fuel + 1) plan rep attempt
          calls log
        = ⟨.blocked, calls + 1, log ++ [selectSafeSql backend rep], attempt + 1⟩) ∧
    (∀ (fuel : Nat) (plan : SqlPlan) (rep : SafetyReport) (attempt calls : Nat)
      (log : List Str) (specName : Str),
      (triage calls).action = .retryWithPatch →
      (safetyRun backend maxRows (applyPatch plan (triage calls))).is_safe = false →
      attempt + 1 < maxRetry →
      reportSubLoop backend maxRetry maxRows execErr triage specName (fuel + 1) plan rep
          attempt calls log
        = .done ⟨specName, some patchedBlockedMsg⟩ (calls + 1)
            (log ++ [selectSafeSql backend rep])) := by
  refine ⟨?_, ?_, ?_⟩
  · intro plan s hs
    by_cases hsafe : (safetyRun backend maxRows plan).is_safe = true
    · have hrun : dataQaRun backend maxRetry maxRows execErr triage plan
          = dataQaLoop backend maxRetry maxRows execErr triage (maxRetry + 1) plan
              (safetyRun backend maxRows plan) 0 0 [] := by
        simp [dataQaRun, hsafe]
      rw [hrun] at hs
      exact dataQaLoop_log_validated backend maxRetry maxRows execErr triage
        (maxRetry + 1) plan (safetyRun backend maxRows plan) 0 0 [] rfl hsafe
        (by simp) s hs
    · have hsafe' : (safetyRun backend maxRows plan).is_safe = false := by simpa using hsafe
      have hrun : dataQaRun backend maxRetry maxRows execErr triage plan
          = ⟨.blocked, 0, [], 0⟩ := by
        simp [dataQaRun, hsafe']
      rw [hrun] at hs
      simp at hs
  · intro fuel plan rep attempt calls log m hx ha hsafe hb
    exact dataQaLoop_step_retry_blocked _ _ _ _ _ _ _ _ _ _ _ _ hx (by omega) ha hsafe
  · intro fuel plan rep attempt calls log specName ha hsafe hb
    exact reportSubLoop_step_retry_blocked _ _ _ _ _ _ _ _ _ _ _ _ (by omega) ha hsafe

/-- C2 witness: an unsafe patch (`drop x`) after the first failure ends the
DATA_QA loop in terminal `blocked` after one execution attempt, with only
the original safe SQL having been executed. -/
theorem patched_sql_revalidated_witness :
    dataQaLoop (str "sqlite") 5 9 (fun _ => some (str "boom"))
        (fun _ => ⟨.retryWithPatch, some (str "drop x"), some (str "drop x")⟩) 3
        ⟨str "select 1", str "select 1"⟩
        (safetyRun (str "sqlite") 9 ⟨str "select 1", str "select 1"⟩) 0 0 []
      = ⟨.blocked, 1, [selectSafeSql (str "sqlite")
          (safetyRun (str "sqlite") 9 ⟨str "select 1", str "select 1"⟩)], 1⟩ := by
  have h := (patched_sql_revalidated (str "sqlite") 5 9 (fun _ => some (str "boom"))
      (fun _ => ⟨.retryWithPatch, some (str "drop x"), some (str "drop x")⟩)).2.1
    2 ⟨str "select 1", str "select 1"⟩
    (safetyRun (str "sqlite") 9 ⟨str "select 1", str "select 1"⟩) 0 0 [] (str "boom")
    rfl rfl (by decide) (by decide)
  simpa using h

/-- C2 counterexample: in the ANALYTICS_REPORT path an unsafe
`RETRY_WITH_PATCH` patch does not terminate the run in `blocked` — the
sub-query is recorded as errored (`Patched SQL blocked by policy`) and the
report finishes with status `ok`. -/
theorem report_unsafe_patch_not_blocked :
    (reportRun (str "sqlite") 5 100 (fun _ => some (str "db error"))
        (fun _ => ⟨.retryWithPatch, some (str "drop x"), some (str "drop x")⟩)
        [⟨str "q1", str "select 1", str "select 1"⟩]).status = RunStatus.ok ∧
    (reportRun (str "sqlite") 5 100 (fun _ => some (str "db error"))
        (fun _ => ⟨.retryWithPatch, some (str "drop x"), some (str "drop x")⟩)
        [⟨str "q1", str "select 1", str "select 1"⟩]).entries
      = [⟨str "q1", some patchedBlockedMsg⟩] ∧
    RunStatus.ok ≠ RunStatus.blocked := by
  refine ⟨by decide, by decide, by decide⟩
